import Mathlib

/-!
Verification of the estirador user-account backend against its specification.

The development shallowly embeds the two source components:

* `UsersService` (signup, email verification, resend-verification, login
  matching) from the users service source file, modelled as pure functions
  over an explicit database state `DB`, returning the result value, the
  successor state and the list of emails sent.
* `SimpleEntityRepository` (the generic entity store) modelled as pure
  functions over a `SimpleStore` state.

External collaborators (bcrypt, the email sender, the relational driver) are
modelled as parameters or as explicit state.  Repository helpers whose code is
not part of the given sources (`UsersRepository`, the verification-token
repository, the TTL constant) are modelled from the specification; each such
definition says so in its doc comment.
-/

/-- Roles of an account.  The source uses `Role.EndUser` as the fixed default
role at signup; the spec mentions "end-user, and others not detailed". -/
inductive Role where
  | endUser
  | admin
deriving DecidableEq, Repr

/-- The `User` entity: identifier, email, password hash, password salt,
verification flag, role.  There is no plaintext-password field: the signup
flow strips the plaintext before creating the account. -/
structure User where
  id : Nat
  email : String
  passwordHash : String
  passwordSalt : String
  isVerified : Bool
  role : Role
deriving DecidableEq, Repr

/-- The `SignupVerificationToken` entity: identifier, owning account
reference, and expiry instant (creation time plus time-to-live). -/
structure SignupVerificationToken where
  id : Nat
  userId : Nat
  expiresAt : Nat
deriving DecidableEq, Repr

/-- The relational state the users service operates on: the users table, the
verification-tokens table, and the fresh-identifier supplies modelling
`generateUniqueUUID` for each table. -/
structure DB where
  users : List User
  tokens : List SignupVerificationToken
  nextUserId : Nat
  nextTokenId : Nat
deriving DecidableEq, Repr

/-- An email handed to the email collaborator: recipient address (the source field is named for the addressee) and HTML body. -/
structure Email where
  toAddress : String
  body : String
deriving DecidableEq, Repr

/-- Modelled from the spec: `USERS_SIGNUP_VERIFICATION_TTL`, the fixed
time-to-live of a fresh verification token.  Its concrete value is not given
by the sources; no claim depends on it. -/
def USERS_SIGNUP_VERIFICATION_TTL : Nat := 3600

/-- Result union of `doCredentialsMatch`:
`{ result: 'match'; user } | { result: 'dont-match' }`.  The matched variant
carries only the fields the query selected (password hash and salt). -/
inductive CredentialsCheckResult where
  | matched (passwordHash passwordSalt : String)
  | dontMatch
deriving DecidableEq, Repr

/-- Result union `'ok' | 'not-found'` shared by `verifyUser` and
`resendSignupVerificationToken`. -/
inductive OkOrNotFound where
  | ok
  | notFound
deriving DecidableEq, Repr

/-- Result enum of `signup`. -/
inductive SignupResult where
  | created
  | alreadyCreated
  | awaitingVerification
deriving DecidableEq, Repr

/-- The signup request payload (`UserSignupRequestDTO`): email plus plaintext
password. -/
structure UserSignupRequestDTO where
  email : String
  password : String
deriving DecidableEq, Repr

namespace UsersService

/-- The email body built by `sendVerificationLinkEmail` around the
verification link. -/
def verificationEmailBody (verificationLink : String) : String :=
  "\n<p>Click or copy this link to verify your newly created account: <a href=\"" ++
    verificationLink ++ "\" target=\"_blank\">" ++ verificationLink ++ "</a></p>\n"

/-- `sendVerificationLinkEmail`: the email handed to the email service. -/
def sendVerificationLinkEmail (recipient verificationLink : String) : Email :=
  { toAddress := recipient, body := verificationEmailBody verificationLink }

/-- Modelled from the spec: `UsersRepository.findOne({ where: { email,
isVerified: true }, select: ['passwordHash', 'passwordSalt'] })` — look up a
verified account by email and fetch only the password hash and salt. -/
def findVerifiedCredentials (db : DB) (email : String) :
    Option (String × String) :=
  (db.users.find? (fun u => u.email == email && u.isVerified)).map
    (fun u => (u.passwordHash, u.passwordSalt))

/-- `UsersService.doCredentialsMatch`: look up a verified account by email
(hash and salt only); absent lookup or hash mismatch both yield dont-match,
otherwise match.  `bhash` abstracts `bcrypt.hash(password, salt)`. -/
def doCredentialsMatch (bhash : String → String → String) (db : DB)
    (email password : String) : CredentialsCheckResult :=
  match findVerifiedCredentials db email with
  | none => .dontMatch
  | some (passwordHash, passwordSalt) =>
    if bhash password passwordSalt == passwordHash then
      .matched passwordHash passwordSalt
    else
      .dontMatch

/-- Modelled from the spec: token lookup by id joining the owning account
(`SignupVerificationTokensRepository.findTokenById`). -/
def findTokenById (db : DB) (tokenId : Nat) :
    Option (SignupVerificationToken × User) :=
  match db.tokens.find? (fun t => t.id == tokenId) with
  | none => none
  | some t => (db.users.find? (fun u => u.id == t.userId)).map (fun u => (t, u))

/-- Modelled from the spec: `SignupVerificationTokensRepository.deleteFromUser`
deletes every verification token belonging to the given account. -/
def deleteFromUser (tokens : List SignupVerificationToken) (user : User) :
    List SignupVerificationToken :=
  tokens.filter (fun t => t.userId != user.id)

/-- Modelled from the spec: `UsersRepository.save` persists the entity's
current field values, keyed by identifier. -/
def saveUser (users : List User) (user : User) : List User :=
  users.map (fun v => if v.id == user.id then user else v)

/-- `UsersService.verifyUser`: look up the token by id (joined to its owning
account); if absent report not-found; otherwise mark the account verified,
persist it, delete all of that account's tokens, and report ok. -/
def verifyUser (db : DB) (tokenId : Nat) : OkOrNotFound × DB :=
  match findTokenById db tokenId with
  | none => (.notFound, db)
  | some (_, user) =>
    let user' : User := { user with isVerified := true }
    (.ok, { db with users := saveUser db.users user',
                    tokens := deleteFromUser db.tokens user' })

/-- Modelled from the spec: `SignupVerificationTokensRepository.findTokenByUser`
finds the account's live (unexpired) verification token. -/
def findTokenByUser (db : DB) (now : Nat) (user : User) :
    Option SignupVerificationToken :=
  db.tokens.find? (fun t => t.userId == user.id && now < t.expiresAt)

/-- Modelled from the spec: `SignupVerificationTokensRepository.createToken`
creates a fresh token for the account with the given time-to-live. -/
def createToken (db : DB) (now : Nat) (user : User) (ttl : Nat) :
    SignupVerificationToken × DB :=
  let t : SignupVerificationToken :=
    { id := db.nextTokenId, userId := user.id, expiresAt := now + ttl }
  (t, { db with tokens := db.tokens ++ [t], nextTokenId := db.nextTokenId + 1 })

/-- `UsersService.resendSignupVerificationToken`: look up the account by
email; if absent report not-found.  With no live token, defensively delete the
account's stale tokens and create a fresh one; with a live token, reuse its
identifier.  Either way email the link and report ok. -/
def resendSignupVerificationToken (db : DB) (now : Nat)
    (email hostname : String) : OkOrNotFound × DB × List Email :=
  match db.users.find? (fun u => u.email == email) with
  | none => (.notFound, db, [])
  | some user =>
    match findTokenByUser db now user with
    | none =>
      let db1 : DB := { db with tokens := deleteFromUser db.tokens user }
      let r := createToken db1 now user USERS_SIGNUP_VERIFICATION_TTL
      let verificationLink := hostname ++ "/verify/" ++ toString r.1.id
      (.ok, r.2, [sendVerificationLinkEmail user.email verificationLink])
    | some token =>
      let verificationLink := hostname ++ "/verify/" ++ toString token.id
      (.ok, db, [sendVerificationLinkEmail user.email verificationLink])

/-- `UsersService.signup`: if an account with the email exists, report
AlreadyCreated or AwaitingVerification with no side effects; otherwise hash
the password with a fresh salt, create the account unverified with the
default end-user role, create a token, email its link, report Created.
`bhash` abstracts `bcrypt.hash`; `salt` is the fresh salt `bcrypt.genSalt`
drew; `now` is the creation instant the token TTL counts from. -/
def signup (bhash : String → String → String) (salt : String) (now : Nat)
    (db : DB) (data : UserSignupRequestDTO) (hostname : String) :
    SignupResult × DB × List Email :=
  match db.users.find? (fun u => u.email == data.email) with
  | some existing =>
    if existing.isVerified then (.alreadyCreated, db, [])
    else (.awaitingVerification, db, [])
  | none =>
    let passwordHash := bhash data.password salt
    let user : User :=
      { id := db.nextUserId, email := data.email, passwordHash := passwordHash,
        passwordSalt := salt, isVerified := false, role := .endUser }
    let db1 : DB := { db with users := db.users ++ [user],
                              nextUserId := db.nextUserId + 1 }
    let r := createToken db1 now user USERS_SIGNUP_VERIFICATION_TTL
    let verificationLink := hostname ++ "/verify/" ++ toString r.1.id
    (.created, r.2, [sendVerificationLinkEmail user.email verificationLink])

end UsersService

open UsersService

/-! ### Helper lemmas for `doCredentialsMatch` -/

/-- If the verified-account lookup misses, credentials do not match. -/
theorem doCredentialsMatch_of_find_none (bhash : String → String → String)
    (db : DB) (email password : String)
    (h : db.users.find? (fun u => u.email == email && u.isVerified) = none) :
    doCredentialsMatch bhash db email password = .dontMatch := by
  unfold doCredentialsMatch findVerifiedCredentials
  rw [h]
  rfl

/-- If the lookup hits but the recomputed hash differs, credentials do not
match. -/
theorem doCredentialsMatch_of_hash_ne (bhash : String → String → String)
    (db : DB) (email password : String) (u : User)
    (h : db.users.find? (fun v => v.email == email && v.isVerified) = some u)
    (hb : bhash password u.passwordSalt ≠ u.passwordHash) :
    doCredentialsMatch bhash db email password = .dontMatch := by
  unfold doCredentialsMatch findVerifiedCredentials
  rw [h]
  simp [hb]

/-- An email nobody holds makes the verified-account lookup miss. -/
theorem find_verified_none_of_unknown_email (db : DB) (email : String)
    (h : ∀ u ∈ db.users, u.email ≠ email) :
    db.users.find? (fun u => u.email == email && u.isVerified) = none := by
  rw [List.find?_eq_none]
  intro u hu
  simp [h u hu]

/-- C4 claim theorem.  `doCredentialsMatch` returns `matched` carrying a
password hash and salt exactly when the verified-only lookup of the email
finds an account, the carried fields are that account's stored hash and salt,
and hashing the supplied password with the stored salt equals the stored
hash. -/
theorem doCredentialsMatch_matched_iff (bhash : String → String → String)
    (db : DB) (email password ph ps : String) :
    doCredentialsMatch bhash db email password = .matched ph ps ↔
      ∃ u, db.users.find? (fun v => v.email == email && v.isVerified) = some u ∧
        ph = u.passwordHash ∧ ps = u.passwordSalt ∧
        bhash password u.passwordSalt = u.passwordHash := by
  unfold doCredentialsMatch findVerifiedCredentials
  cases h : db.users.find? (fun v => v.email == email && v.isVerified) with
  | none => simp
  | some u =>
    by_cases hb : bhash password u.passwordSalt = u.passwordHash
    · simp [hb]
      exact and_congr eq_comm eq_comm
    · simp [hb]

/-- C4 witness: a concrete verified account whose password matches. -/
theorem doCredentialsMatch_matched_iff_witness :
    doCredentialsMatch (fun p s => p ++ s)
      { users := [{ id := 0, email := "a@b.c", passwordHash := "pws",
                    passwordSalt := "s", isVerified := true, role := .endUser }],
        tokens := [], nextUserId := 1, nextTokenId := 0 }
      "a@b.c" "pw" = .matched "pws" "s" := by
  rw [doCredentialsMatch_matched_iff]
  refine ⟨{ id := 0, email := "a@b.c", passwordHash := "pws", passwordSalt := "s",
            isVerified := true, role := .endUser }, by decide, rfl, rfl, by decide⟩

/-! ### C5: failure cases of `doCredentialsMatch` are indistinguishable -/

/-- Failure case: the verified-account lookup hits, but the supplied password
hashes (under the stored salt) to something other than the stored hash. -/
def wrongPasswordCase (bhash : String → String → String) (db : DB)
    (email password : String) : Prop :=
  ∃ u, db.users.find? (fun v => v.email == email && v.isVerified) = some u ∧
    bhash password u.passwordSalt ≠ u.passwordHash

/-- Failure case: an unverified account holds the email and the supplied
password is correct for it, and no verified account holds the email (emails
are unique across accounts). -/
def unverifiedAccountCase (bhash : String → String → String) (db : DB)
    (email password : String) : Prop :=
  db.users.find? (fun v => v.email == email && v.isVerified) = none ∧
    ∃ u ∈ db.users, u.email = email ∧ u.isVerified = false ∧
      bhash password u.passwordSalt = u.passwordHash

/-- Failure case: no account at all holds the email. -/
def unknownEmailCase (db : DB) (email : String) : Prop :=
  ∀ u ∈ db.users, u.email ≠ email

/-- A `doCredentialsMatch` call falling in any of the three failure cases of
the claim. -/
def credentialsFailureCase (bhash : String → String → String) (db : DB)
    (email password : String) : Prop :=
  wrongPasswordCase bhash db email password ∨
    unverifiedAccountCase bhash db email password ∨
    unknownEmailCase db email

/-- Any failure case yields the bare `dontMatch` variant. -/
theorem doCredentialsMatch_of_failure (bhash : String → String → String)
    (db : DB) (email password : String)
    (h : credentialsFailureCase bhash db email password) :
    doCredentialsMatch bhash db email password = .dontMatch := by
  rcases h with ⟨u, hu, hb⟩ | ⟨hnone, -⟩ | hunknown
  · exact doCredentialsMatch_of_hash_ne bhash db email password u hu hb
  · exact doCredentialsMatch_of_find_none bhash db email password hnone
  · exact doCredentialsMatch_of_find_none bhash db email password
      (find_verified_none_of_unknown_email db email hunknown)

/-- C5 claim theorem.  Any two `doCredentialsMatch` calls that each fall in
one of the three failure cases — wrong password for a verified account, an
unverified account's correct credentials, or an unknown email — return the
very same result value, the content-free `dontMatch` variant, so the caller
cannot tell the cases apart from the result. -/
theorem doCredentialsMatch_failure_indistinguishable
    (bhash₁ bhash₂ : String → String → String) (db₁ db₂ : DB)
    (email₁ password₁ email₂ password₂ : String)
    (h₁ : credentialsFailureCase bhash₁ db₁ email₁ password₁)
    (h₂ : credentialsFailureCase bhash₂ db₂ email₂ password₂) :
    doCredentialsMatch bhash₁ db₁ email₁ password₁ =
        doCredentialsMatch bhash₂ db₂ email₂ password₂ ∧
      doCredentialsMatch bhash₁ db₁ email₁ password₁ = .dontMatch := by
  have e₁ := doCredentialsMatch_of_failure bhash₁ db₁ email₁ password₁ h₁
  have e₂ := doCredentialsMatch_of_failure bhash₂ db₂ email₂ password₂ h₂
  exact ⟨e₁.trans e₂.symm, e₁⟩

/-- C5 witness: a wrong-password call against a verified account and an
unknown-email call against an empty store return the identical result. -/
theorem doCredentialsMatch_failure_indistinguishable_witness :
    doCredentialsMatch (fun p s => p ++ s)
        { users := [{ id := 0, email := "a@b.c", passwordHash := "pws",
                      passwordSalt := "s", isVerified := true, role := .endUser }],
          tokens := [], nextUserId := 1, nextTokenId := 0 } "a@b.c" "other" =
      doCredentialsMatch (fun p s => p ++ s)
        { users := [], tokens := [], nextUserId := 0, nextTokenId := 0 }
        "ghost@b.c" "pw" := by
  refine (doCredentialsMatch_failure_indistinguishable
    (fun p s => p ++ s) (fun p s => p ++ s) _ _ "a@b.c" "other" "ghost@b.c" "pw"
    (Or.inl ⟨{ id := 0, email := "a@b.c", passwordHash := "pws",
               passwordSalt := "s", isVerified := true, role := .endUser },
             by decide, by decide⟩)
    (Or.inr (Or.inr (by intro u hu; simp at hu)))).1

/-! ### C2, C6: `verifyUser` -/

/-- C2 claim theorem.  `verifyUser` on an id matching no stored token returns
not-found with the state unchanged; on a matching token it returns ok, sets
the owning account's verified flag and persists it, and deletes every
verification token belonging to that account. -/
theorem verifyUser_spec (db : DB) (tokenId : Nat) :
    (findTokenById db tokenId = none →
      verifyUser db tokenId = (.notFound, db)) ∧
    (∀ t u, findTokenById db tokenId = some (t, u) →
      verifyUser db tokenId =
          (.ok, { db with users := saveUser db.users { u with isVerified := true },
                          tokens := deleteFromUser db.tokens u }) ∧
        ∀ tk ∈ (verifyUser db tokenId).2.tokens, tk.userId ≠ u.id) := by
  refine ⟨fun h => by simp [verifyUser, h], fun t u h => ?_⟩
  have hv : verifyUser db tokenId =
      (.ok, { db with users := saveUser db.users { u with isVerified := true },
                      tokens := deleteFromUser db.tokens u }) := by
    simp [verifyUser, h, deleteFromUser]
  refine ⟨hv, fun tk htk => ?_⟩
  rw [hv] at htk
  simp [deleteFromUser, List.mem_filter] at htk
  exact htk.2

/-- C2 witness: verifying a concrete stored token marks its one-user store
verified and empties the token table. -/
theorem verifyUser_spec_witness :
    verifyUser
        { users := [{ id := 7, email := "a@b.c", passwordHash := "h",
                      passwordSalt := "s", isVerified := false, role := .endUser }],
          tokens := [{ id := 5, userId := 7, expiresAt := 100 }],
          nextUserId := 8, nextTokenId := 6 } 5 =
      (.ok,
        { users := [{ id := 7, email := "a@b.c", passwordHash := "h",
                      passwordSalt := "s", isVerified := true, role := .endUser }],
          tokens := [], nextUserId := 8, nextTokenId := 6 }) :=
  (((verifyUser_spec
      { users := [{ id := 7, email := "a@b.c", passwordHash := "h",
                    passwordSalt := "s", isVerified := false, role := .endUser }],
        tokens := [{ id := 5, userId := 7, expiresAt := 100 }],
        nextUserId := 8, nextTokenId := 6 } 5).2
    { id := 5, userId := 7, expiresAt := 100 }
    { id := 7, email := "a@b.c", passwordHash := "h", passwordSalt := "s",
      isVerified := false, role := .endUser } rfl).1).trans (by decide)

/-- Destructuring a successful token-with-account lookup into its two
component lookups. -/
theorem findTokenById_some (db : DB) (tokenId : Nat)
    (t : SignupVerificationToken) (u : User)
    (h : findTokenById db tokenId = some (t, u)) :
    db.tokens.find? (fun tk => tk.id == tokenId) = some t ∧
      db.users.find? (fun v => v.id == t.userId) = some u := by
  unfold findTokenById at h
  cases hft : db.tokens.find? (fun tk => tk.id == tokenId) with
  | none => rw [hft] at h; simp at h
  | some t0 =>
    rw [hft] at h
    simp only [Option.map_eq_some'] at h
    obtain ⟨u0, hfu, huv⟩ := h
    rw [Prod.mk.injEq] at huv
    obtain ⟨rfl, rfl⟩ := huv
    exact ⟨rfl, hfu⟩

/-- C6 claim theorem.  When token ids are unique (they are primary keys) and
`verifyUser` succeeded, repeating the call with the same token id from the
resulting state reports not-found: the token was consumed. -/
theorem verifyUser_consumed (db : DB) (tokenId : Nat) (db' : DB)
    (hnodup : (db.tokens.map (fun t => t.id)).Nodup)
    (h : verifyUser db tokenId = (.ok, db')) :
    verifyUser db' tokenId = (.notFound, db') := by
  cases hf : findTokenById db tokenId with
  | none => simp [verifyUser, hf] at h
  | some tu =>
    obtain ⟨t, u⟩ := tu
    simp [verifyUser, hf] at h
    obtain ⟨hft, hfu⟩ := findTokenById_some db tokenId t u hf
    have htmem : t ∈ db.tokens := List.mem_of_find?_eq_some hft
    have htid : t.id = tokenId := by simpa using List.find?_some hft
    have huid : u.id = t.userId := by simpa using List.find?_some hfu
    have hnone : db'.tokens.find? (fun tk => tk.id == tokenId) = none := by
      rw [← h]
      simp only [deleteFromUser]
      rw [List.find?_eq_none]
      intro tk htk
      simp only [List.mem_filter, bne_iff_ne, ne_eq] at htk
      simp only [beq_iff_eq]
      intro hid
      have hteq : tk = t :=
        List.inj_on_of_nodup_map hnodup htk.1 htmem (by rw [hid, htid])
      subst hteq
      exact htk.2 (huid ▸ rfl)
    have hdone : findTokenById db' tokenId = none := by
      unfold findTokenById
      rw [hnone]
    simp [verifyUser, hdone]

/-- C6 witness: consuming the concrete token of the C-style one-user store and
then retrying the same id reports not-found. -/
theorem verifyUser_consumed_witness :
    verifyUser
        { users := [{ id := 7, email := "a@b.c", passwordHash := "h",
                      passwordSalt := "s", isVerified := true, role := .endUser }],
          tokens := [], nextUserId := 8, nextTokenId := 6 } 5 =
      (.notFound,
        { users := [{ id := 7, email := "a@b.c", passwordHash := "h",
                      passwordSalt := "s", isVerified := true, role := .endUser }],
          tokens := [], nextUserId := 8, nextTokenId := 6 }) :=
  verifyUser_consumed
    { users := [{ id := 7, email := "a@b.c", passwordHash := "h",
                  passwordSalt := "s", isVerified := false, role := .endUser }],
      tokens := [{ id := 5, userId := 7, expiresAt := 100 }],
      nextUserId := 8, nextTokenId := 6 } 5
    { users := [{ id := 7, email := "a@b.c", passwordHash := "h",
                  passwordSalt := "s", isVerified := true, role := .endUser }],
      tokens := [], nextUserId := 8, nextTokenId := 6 }
    (by decide) (by decide)

/-! ### C1: `signup` -/

/-- C1 claim theorem.  If an account holds the payload's email: verified gives
AlreadyCreated, unverified gives AwaitingVerification, both with no new
account, no new token and no email.  Otherwise exactly one unverified account
with the default end-user role and the salted password hash (no plaintext
field exists on the account), exactly one verification token, and exactly one
email whose link embeds that token's identifier are created, and Created is
returned. -/
theorem signup_spec (bhash : String → String → String) (salt : String)
    (now : Nat) (db : DB) (data : UserSignupRequestDTO) (hostname : String) :
    (∀ existing,
      db.users.find? (fun u => u.email == data.email) = some existing →
      (existing.isVerified = true →
        signup bhash salt now db data hostname = (.alreadyCreated, db, [])) ∧
      (existing.isVerified = false →
        signup bhash salt now db data hostname =
          (.awaitingVerification, db, []))) ∧
    (db.users.find? (fun u => u.email == data.email) = none →
      signup bhash salt now db data hostname =
          (.created,
            { users := db.users ++
                [{ id := db.nextUserId, email := data.email,
                   passwordHash := bhash data.password salt,
                   passwordSalt := salt, isVerified := false,
                   role := .endUser }],
              tokens := db.tokens ++
                [{ id := db.nextTokenId, userId := db.nextUserId,
                   expiresAt := now + USERS_SIGNUP_VERIFICATION_TTL }],
              nextUserId := db.nextUserId + 1,
              nextTokenId := db.nextTokenId + 1 },
            [sendVerificationLinkEmail data.email
              (hostname ++ "/verify/" ++ toString db.nextTokenId)]) ∧
        (signup bhash salt now db data hostname).2.1.users.length =
          db.users.length + 1 ∧
        (signup bhash salt now db data hostname).2.1.tokens.length =
          db.tokens.length + 1 ∧
        (signup bhash salt now db data hostname).2.2.length = 1) := by
  refine ⟨fun existing h => ⟨fun hv => ?_, fun hv => ?_⟩, fun h => ?_⟩
  · simp [signup, h, hv]
  · simp [signup, h, hv]
  · have he : signup bhash salt now db data hostname =
        (.created,
          { users := db.users ++
              [{ id := db.nextUserId, email := data.email,
                 passwordHash := bhash data.password salt,
                 passwordSalt := salt, isVerified := false,
                 role := .endUser }],
            tokens := db.tokens ++
              [{ id := db.nextTokenId, userId := db.nextUserId,
                 expiresAt := now + USERS_SIGNUP_VERIFICATION_TTL }],
            nextUserId := db.nextUserId + 1,
            nextTokenId := db.nextTokenId + 1 },
          [sendVerificationLinkEmail data.email
            (hostname ++ "/verify/" ++ toString db.nextTokenId)]) := by
      simp [signup, h, createToken]
    refine ⟨he, ?_, ?_, ?_⟩ <;> rw [he] <;> simp

/-- C1 witness: signing up a fresh email on an empty store creates the one
unverified end-user account, one token, and one email embedding its id. -/
theorem signup_spec_witness :
    signup (fun p s => p ++ s) "s" 0
        { users := [], tokens := [], nextUserId := 0, nextTokenId := 0 }
        { email := "a@b.c", password := "pw" } "http://x" =
      (.created,
        { users := [{ id := 0, email := "a@b.c", passwordHash := "pws",
                      passwordSalt := "s", isVerified := false,
                      role := .endUser }],
          tokens := [{ id := 0, userId := 0,
                       expiresAt := USERS_SIGNUP_VERIFICATION_TTL }],
          nextUserId := 1, nextTokenId := 1 },
        [sendVerificationLinkEmail "a@b.c" "http://x/verify/0"]) :=
  (((signup_spec (fun p s => p ++ s) "s" 0
      { users := [], tokens := [], nextUserId := 0, nextTokenId := 0 }
      { email := "a@b.c", password := "pw" } "http://x").2 rfl).1).trans
    (by decide)

/-! ### C3: `resendSignupVerificationToken` -/

/-- C3 claim theorem.  Resend on an unknown email reports not-found with no
side effects.  On a known account with a live token, no token is created and
that token's identifier is the one in the emailed link.  On a known account
with no live token, the account's stale tokens are deleted, a fresh token
with the fixed time-to-live is created, and its identifier is in the link; in
both account cases exactly one email is sent and ok is returned. -/
theorem resendSignupVerificationToken_spec (db : DB) (now : Nat)
    (email hostname : String) :
    (db.users.find? (fun u => u.email == email) = none →
      resendSignupVerificationToken db now email hostname =
        (.notFound, db, [])) ∧
    (∀ user, db.users.find? (fun u => u.email == email) = some user →
      (∀ token, findTokenByUser db now user = some token →
        resendSignupVerificationToken db now email hostname =
          (.ok, db,
            [sendVerificationLinkEmail user.email
              (hostname ++ "/verify/" ++ toString token.id)])) ∧
      (findTokenByUser db now user = none →
        resendSignupVerificationToken db now email hostname =
          (.ok,
            { db with
                tokens := deleteFromUser db.tokens user ++
                  [{ id := db.nextTokenId, userId := user.id,
                     expiresAt := now + USERS_SIGNUP_VERIFICATION_TTL }],
                nextTokenId := db.nextTokenId + 1 },
            [sendVerificationLinkEmail user.email
              (hostname ++ "/verify/" ++ toString db.nextTokenId)]))) := by
  refine ⟨fun h => ?_, fun user h => ⟨fun token ht => ?_, fun ht => ?_⟩⟩
  · simp [resendSignupVerificationToken, h]
  · simp [resendSignupVerificationToken, h, ht]
  · simp [resendSignupVerificationToken, h, ht, createToken]

/-- C3 witness: resending for an account with a live token (id 5) reuses id 5
in the link and leaves the store unchanged. -/
theorem resendSignupVerificationToken_spec_witness :
    resendSignupVerificationToken
        { users := [{ id := 7, email := "a@b.c", passwordHash := "h",
                      passwordSalt := "s", isVerified := false,
                      role := .endUser }],
          tokens := [{ id := 5, userId := 7, expiresAt := 100 }],
          nextUserId := 8, nextTokenId := 6 } 0 "a@b.c" "http://x" =
      (.ok,
        { users := [{ id := 7, email := "a@b.c", passwordHash := "h",
                      passwordSalt := "s", isVerified := false,
                      role := .endUser }],
          tokens := [{ id := 5, userId := 7, expiresAt := 100 }],
          nextUserId := 8, nextTokenId := 6 },
        [sendVerificationLinkEmail "a@b.c" "http://x/verify/5"]) :=
  ((((resendSignupVerificationToken_spec
      { users := [{ id := 7, email := "a@b.c", passwordHash := "h",
                    passwordSalt := "s", isVerified := false,
                    role := .endUser }],
        tokens := [{ id := 5, userId := 7, expiresAt := 100 }],
        nextUserId := 8, nextTokenId := 6 } 0 "a@b.c" "http://x").2
    { id := 7, email := "a@b.c", passwordHash := "h", passwordSalt := "s",
      isVerified := false, role := .endUser } rfl).1
    { id := 5, userId := 7, expiresAt := 100 } rfl)).trans (by decide)

/-! ### The generic entity store (`SimpleEntityRepository`) -/

/-- A persisted row of the generic entity store.  `cls` is the runtime class
of the instance (the `instanceof` tag), `id` the client-generated unique
identifier, `deletedAt` the nullable deletion timestamp of soft deletion, and
`fields` the remaining entity fields. -/
structure SimpleRow (β : Type) where
  cls : Nat
  id : Nat
  deletedAt : Option Nat
  fields : β
deriving DecidableEq, Repr

/-- A `SimpleEntityRepository` instance: its entity class
(`this.repository.target`), whether the schema declares a deletion timestamp
column (`metadata.deleteDateColumn`), the backing table, and the fresh-id
supply modelling `generateUniqueUUID`. -/
structure SimpleStore (β : Type) where
  target : Nat
  hasDeleteDateColumn : Bool
  table : List (SimpleRow β)
  nextId : Nat
deriving DecidableEq, Repr

/-- The creation payload handed to `create`.  `strayId` models an `id` field
that happens to be present on the payload object (the claim's edge case);
`fields` are the creation attributes. -/
structure CreationPayload (β : Type) where
  strayId : Option Nat
  fields : β
deriving DecidableEq, Repr

/-- The page shape returned by `find`: the constant cap, the total count of
matching rows ignoring pagination, and the row slice. -/
structure Page (β : Type) where
  limit : Nat
  total : Nat
  rows : List (SimpleRow β)
deriving DecidableEq, Repr

/-- `save`/`remove` throw on a foreign instance; the thrown error. -/
inductive StoreError where
  | preconditionViolation
deriving DecidableEq, Repr

namespace SimpleEntityRepository

/-- The rows a query matches: soft-deleted rows are excluded unless
`withDeleted` is set, and the `where` predicate `w` must hold. -/
def matchingRows (s : SimpleStore β) (withDeleted : Bool)
    (w : SimpleRow β → Bool) : List (SimpleRow β) :=
  s.table.filter (fun r => (withDeleted || r.deletedAt.isNone) && w r)

/-- `SimpleEntityRepository.findOne`: the first matching row or absence. -/
def findOne (s : SimpleStore β) (withDeleted : Bool)
    (w : SimpleRow β → Bool) : Option (SimpleRow β) :=
  (matchingRows s withDeleted w).head?

/-- `SimpleEntityRepository.find`: `findAndCount` with `take` forced to the
constant cap 50; `total` is the full matching count, `rows` the slice after
the `skip` offset capped at `limit`. -/
def find (s : SimpleStore β) (withDeleted : Bool) (w : SimpleRow β → Bool)
    (skip : Nat) : Page β :=
  let limit := 50
  let results := matchingRows s withDeleted w
  { limit := limit, total := results.length,
    rows := (results.drop skip).take limit }

/-- The relational `save` primitive: upsert by identifier. -/
def saveRow (table : List (SimpleRow β)) (e : SimpleRow β) :
    List (SimpleRow β) :=
  if table.any (fun r => r.id == e.id) then
    table.map (fun r => if r.id == e.id then e else r)
  else
    table ++ [e]

/-- `SimpleEntityRepository.create`: copy the payload's fields onto a fresh
instance of the store's entity class, then assign a freshly generated
identifier (overwriting any identifier the payload carried), persist, and
return the materialized entity. -/
def create (s : SimpleStore β) (payload : CreationPayload β) :
    SimpleRow β × SimpleStore β :=
  let copied : SimpleRow β :=
    { cls := s.target, id := payload.strayId.getD 0, deletedAt := none,
      fields := payload.fields }
  let entity : SimpleRow β := { copied with id := s.nextId }
  (entity, { s with table := saveRow s.table entity, nextId := s.nextId + 1 })

/-- `SimpleEntityRepository.save`: fail fast unless the entity is an instance
of the store's entity class, then upsert its current field values. -/
def save (s : SimpleStore β) (e : SimpleRow β) :
    Except StoreError (SimpleStore β) :=
  if e.cls == s.target then
    .ok { s with table := saveRow s.table e }
  else
    .error .preconditionViolation

/-- `SimpleEntityRepository.remove`: fail fast unless the entity is an
instance of the store's entity class; soft-delete (set the deletion
timestamp) when the schema declares a deletion column, physically delete
otherwise. -/
def remove (s : SimpleStore β) (e : SimpleRow β) (now : Nat) :
    Except StoreError (SimpleStore β) :=
  if e.cls == s.target then
    if s.hasDeleteDateColumn then
      .ok { s with table :=
        s.table.map (fun r => if r.id == e.id then
          { r with deletedAt := some now } else r) }
    else
      .ok { s with table := s.table.filter (fun r => r.id != e.id) }
  else
    .error .preconditionViolation

end SimpleEntityRepository

open SimpleEntityRepository

/-- C7 claim theorem.  Every `find` query returns at most 50 rows, reports
the constant cap 50 as `limit`, and reports as `total` the full count of
matching rows, ignoring the cap and the skip offset. -/
theorem find_caps_rows_and_counts_all (β : Type) (s : SimpleStore β)
    (withDeleted : Bool) (w : SimpleRow β → Bool) (skip : Nat) :
    (find s withDeleted w skip).rows.length ≤ 50 ∧
      (find s withDeleted w skip).limit = 50 ∧
      (find s withDeleted w skip).total =
        (matchingRows s withDeleted w).length := by
  refine ⟨?_, rfl, rfl⟩
  exact List.length_take_le 50 ((matchingRows s withDeleted w).drop skip)

/-- C8 claim theorem.  `save` and `remove` both fail fast with the
precondition violation on an entity that is not an instance of the store's
entity class, and both proceed (returning a successor store) on an entity
that is. -/
theorem save_remove_precondition (β : Type) (s : SimpleStore β)
    (e : SimpleRow β) (now : Nat) :
    (e.cls ≠ s.target →
      save s e = .error .preconditionViolation ∧
        remove s e now = .error .preconditionViolation) ∧
    (e.cls = s.target →
      (∃ s1, save s e = .ok s1) ∧ ∃ s2, remove s e now = .ok s2) := by
  constructor
  · intro h
    constructor <;> simp [save, remove, h]
  · intro h
    refine ⟨⟨{ s with table := saveRow s.table e }, by simp [save, h]⟩, ?_⟩
    cases hd : s.hasDeleteDateColumn
    · exact ⟨{ s with table := s.table.filter (fun r => r.id != e.id) },
        by simp [remove, h, hd]⟩
    · exact ⟨{ s with table := s.table.map (fun r => if r.id == e.id then
          { r with deletedAt := some now } else r) },
        by simp [remove, h, hd]⟩

/-- C8 witness: a foreign instance (class 1) against a class-0 store makes
both `save` and `remove` fail fast. -/
theorem save_remove_precondition_witness :
    save { target := 0, hasDeleteDateColumn := false, table := [], nextId := 0 }
        ({ cls := 1, id := 4, deletedAt := none, fields := () } : SimpleRow Unit) =
      .error .preconditionViolation ∧
    remove { target := 0, hasDeleteDateColumn := false, table := [], nextId := 0 }
        ({ cls := 1, id := 4, deletedAt := none, fields := () } : SimpleRow Unit) 0 =
      .error .preconditionViolation :=
  (save_remove_precondition Unit
    { target := 0, hasDeleteDateColumn := false, table := [], nextId := 0 }
    { cls := 1, id := 4, deletedAt := none, fields := () } 0).1 (by decide)

/-- C9 claim theorem.  A successful `remove` on a schema with a deletion
column soft-deletes: the row stops being retrievable by `findOne`/`find`
unless deleted rows are included, and stays retrievable when they are.  On a
schema with no deletion column the row is physically deleted and is
unretrievable under either option. -/
theorem remove_soft_or_hard (β : Type) (s : SimpleStore β) (e : SimpleRow β)
    (now : Nat) (s' : SimpleStore β) (hcls : e.cls = s.target)
    (h : remove s e now = .ok s') :
    (s.hasDeleteDateColumn = true →
      findOne s' false (fun r => r.id == e.id) = none ∧
        (find s' false (fun r => r.id == e.id) 0).rows = [] ∧
        ((∃ r ∈ s.table, r.id = e.id) →
          (findOne s' true (fun r => r.id == e.id)).isSome)) ∧
    (s.hasDeleteDateColumn = false →
      ∀ withDeleted,
        findOne s' withDeleted (fun r => r.id == e.id) = none ∧
          (find s' withDeleted (fun r => r.id == e.id) 0).rows = []) := by
  constructor
  · intro hd
    simp [remove, hcls, hd] at h
    have hm : matchingRows s' false (fun r => r.id == e.id) = [] := by
      rw [← h]
      simp only [matchingRows]
      rw [List.filter_eq_nil_iff]
      intro a ha
      obtain ⟨r, hr, rfl⟩ := List.mem_map.mp ha
      by_cases hid : r.id = e.id
      · simp [hid]
      · simp [hid]
    refine ⟨by simp [findOne, hm], by simp [find, hm], ?_⟩
    rintro ⟨r, hr, hid⟩
    have hmem : ({ r with deletedAt := some now } : SimpleRow β) ∈ s'.table := by
      rw [← h]
      have := List.mem_map_of_mem
        (fun r : SimpleRow β => if r.id == e.id then
          { r with deletedAt := some now } else r) hr
      simpa [hid] using this
    have hmem2 : ({ r with deletedAt := some now } : SimpleRow β) ∈
        matchingRows s' true (fun r => r.id == e.id) := by
      simp only [matchingRows]
      rw [List.mem_filter]
      exact ⟨hmem, by simp [hid]⟩
    exact List.head?_isSome.mpr (List.ne_nil_of_mem hmem2)
  · intro hd withDeleted
    simp [remove, hcls, hd] at h
    have hm : matchingRows s' withDeleted (fun r => r.id == e.id) = [] := by
      rw [← h]
      simp only [matchingRows]
      rw [List.filter_eq_nil_iff]
      intro a ha
      simp only [List.mem_filter, bne_iff_ne, ne_eq] at ha
      simp [ha.2]
    exact ⟨by simp [findOne, hm], by simp [find, hm]⟩

/-- C9 witness: soft-removing the one row of a deletion-column store hides it
from a plain lookup and keeps it reachable with deleted rows included. -/
theorem remove_soft_or_hard_witness :
    findOne
        { target := 0, hasDeleteDateColumn := true,
          table := [{ cls := 0, id := 3, deletedAt := some 5, fields := () }],
          nextId := 9 } false (fun r => r.id == 3) = none ∧
      (findOne
        ({ target := 0, hasDeleteDateColumn := true,
           table := [{ cls := 0, id := 3, deletedAt := some 5, fields := () }],
           nextId := 9 } : SimpleStore Unit) true (fun r => r.id == 3)).isSome := by
  have h := (remove_soft_or_hard Unit
    { target := 0, hasDeleteDateColumn := true,
      table := [{ cls := 0, id := 3, deletedAt := none, fields := () }],
      nextId := 9 }
    { cls := 0, id := 3, deletedAt := none, fields := () } 5
    { target := 0, hasDeleteDateColumn := true,
      table := [{ cls := 0, id := 3, deletedAt := some 5, fields := () }],
      nextId := 9 } rfl rfl).1 rfl
  exact ⟨h.1, h.2.2 ⟨{ cls := 0, id := 3, deletedAt := none, fields := () },
    by decide, rfl⟩⟩

/-- C10 claim theorem.  `create` assigns the freshly generated identifier
after copying, so the returned entity's id is the fresh one, any id carried
by the payload is ignored entirely (it never reaches the persisted state),
every payload field is preserved, the fresh id differs from every stored
row's id (uniqueness of the generator), and the persisted table holds the
returned entity. -/
theorem create_overwrites_payload_id (β : Type) (s : SimpleStore β)
    (payload : CreationPayload β) :
    (create s payload).1.id = s.nextId ∧
      (create s payload).1.fields = payload.fields ∧
      (∀ strayId, create s { payload with strayId := strayId } =
        create s payload) ∧
      ((∀ r ∈ s.table, r.id < s.nextId) →
        ∀ r ∈ s.table, r.id ≠ (create s payload).1.id) ∧
      (create s payload).2.table = saveRow s.table (create s payload).1 := by
  refine ⟨rfl, rfl, fun strayId => rfl, fun hinv r hr => ?_, rfl⟩
  exact Nat.ne_of_lt (hinv r hr)

/-- C10 witness: creating over a one-row store with a stray payload id 77
returns the fresh id 1, which differs from the stored row's id. -/
theorem create_overwrites_payload_id_witness :
    (create
        { target := 0, hasDeleteDateColumn := false,
          table := [{ cls := 0, id := 0, deletedAt := none, fields := () }],
          nextId := 1 }
        ({ strayId := some 77, fields := () } : CreationPayload Unit)).1.id = 1 ∧
      ({ cls := 0, id := 0, deletedAt := none, fields := () } : SimpleRow Unit).id ≠
        (create
          { target := 0, hasDeleteDateColumn := false,
            table := [{ cls := 0, id := 0, deletedAt := none, fields := () }],
            nextId := 1 }
          ({ strayId := some 77, fields := () } : CreationPayload Unit)).1.id :=
  ⟨(create_overwrites_payload_id Unit
      { target := 0, hasDeleteDateColumn := false,
        table := [{ cls := 0, id := 0, deletedAt := none, fields := () }],
        nextId := 1 } { strayId := some 77, fields := () }).1,
   (create_overwrites_payload_id Unit
      { target := 0, hasDeleteDateColumn := false,
        table := [{ cls := 0, id := 0, deletedAt := none, fields := () }],
        nextId := 1 } { strayId := some 77, fields := () }).2.2.2.1
     (by decide) { cls := 0, id := 0, deletedAt := none, fields := () }
     (by decide)⟩
